import Mathlib

/-!
Verification of the mcpmc command-dispatch and resilience layer.

Shallow embedding of `src/core/bot.ts` (MineflayerBot), `src/handlers/tools.ts`
(MinecraftToolHandler) and `src/core/server.ts` (MinecraftServer request
router), with theorems settling the behavioural claims about area excavation,
spatial transforms, connection supervision and request routing.
-/

namespace Mcpmc

/-- Block/world coordinates, `{x, y, z}` (generic over the coordinate type:
`Int` for block positions, `ℚ` for continuous entity positions). -/
@[ext]
structure Position (α : Type) where
  x : α
  y : α
  z : α
deriving DecidableEq, Repr

/-- The sweep-order enumeration of `MineflayerBot.digArea`
(src/core/bot.ts lines 352-367): corners are normalised into an axis-aligned
box (`min`/`max` per axis) and every block position inside is listed by the
loop nest `for (let y = maxY; y >= minY; y--) for (let x = minX; x <= maxX;
x++) for (let z = minZ; z <= maxZ; z++) positions.push(new Vec3(x, y, z))`. -/
def digAreaPositions (s e : Position Int) : List (Position Int) :=
  let minX := min s.x e.x
  let maxX := max s.x e.x
  let minY := min s.y e.y
  let maxY := max s.y e.y
  let minZ := min s.z e.z
  let maxZ := max s.z e.z
  (List.range (maxY - minY + 1).toNat).flatMap fun (iy : Nat) =>
    (List.range (maxX - minX + 1).toNat).flatMap fun (ix : Nat) =>
      (List.range (maxZ - minZ + 1).toNat).map fun (iz : Nat) =>
        ⟨minX + (ix : Int), maxY - (iy : Int), minZ + (iz : Int)⟩

/-- Generic helper: a list is pairwise related when every ordered pair of its
members is related. -/
theorem pairwise_of_forall_mem {α : Type} {R : α → α → Prop} :
    ∀ {l : List α}, (∀ a ∈ l, ∀ b ∈ l, R a b) → l.Pairwise R
  | [], _ => List.Pairwise.nil
  | a :: l, h =>
    List.Pairwise.cons (fun b hb => h a (List.mem_cons_self a l) b (List.mem_cons_of_mem a hb))
      (pairwise_of_forall_mem fun x hx y hy =>
        h x (List.mem_cons_of_mem a hx) y (List.mem_cons_of_mem a hy))

/-- Generic helper: length of a `flatMap` whose pieces all have length `m`. -/
theorem length_flatMap_const {α β : Type} {f : α → List β} {m : Nat} :
    ∀ {l : List α}, (∀ a ∈ l, (f a).length = m) → (l.flatMap f).length = l.length * m
  | [], _ => by simp
  | a :: l, h => by
    have ih := length_flatMap_const (f := f) (m := m)
      (l := l) (fun x hx => h x (List.mem_cons_of_mem a hx))
    have ha := h a (List.mem_cons_self a l)
    rw [List.flatMap_cons, List.length_append, ha, ih, List.length_cons, Nat.succ_mul]
    omega

/-- Membership in one z-row of the sweep. -/
theorem mem_sweep_row {minZ y xv : Int} {nz : Nat} {p : Position Int} :
    p ∈ (List.range nz).map (fun (iz : Nat) => (⟨xv, y, minZ + (iz : Int)⟩ : Position Int)) ↔
      p.x = xv ∧ p.y = y ∧ minZ ≤ p.z ∧ p.z < minZ + nz := by
  simp only [List.mem_map, List.mem_range]
  constructor
  · rintro ⟨iz, hiz, rfl⟩
    refine ⟨rfl, rfl, ?_, ?_⟩ <;> simp <;> omega
  · rintro ⟨hx, hy, h1, h2⟩
    refine ⟨(p.z - minZ).toNat, by omega, ?_⟩
    ext <;> simp <;> omega

/-- Membership in one y-layer of the sweep. -/
theorem mem_sweep_layer {minX minZ y : Int} {nx nz : Nat} {p : Position Int} :
    p ∈ (List.range nx).flatMap
        (fun (ix : Nat) => (List.range nz).map fun (iz : Nat) =>
          (⟨minX + (ix : Int), y, minZ + (iz : Int)⟩ : Position Int)) ↔
      minX ≤ p.x ∧ p.x < minX + nx ∧ p.y = y ∧ minZ ≤ p.z ∧ p.z < minZ + nz := by
  simp only [List.mem_flatMap, List.mem_range]
  constructor
  · rintro ⟨ix, hix, hp⟩
    rw [mem_sweep_row] at hp
    refine ⟨?_, ?_, hp.2.1, hp.2.2.1, hp.2.2.2⟩ <;> omega
  · rintro ⟨h1, h2, hy, h3, h4⟩
    refine ⟨(p.x - minX).toNat, by omega, ?_⟩
    rw [mem_sweep_row]
    refine ⟨?_, hy, h3, h4⟩
    omega

/-- Membership in the whole sweep list. -/
theorem mem_digAreaPositions {s e : Position Int} {p : Position Int} :
    p ∈ digAreaPositions s e ↔
      min s.x e.x ≤ p.x ∧ p.x ≤ max s.x e.x ∧
      min s.y e.y ≤ p.y ∧ p.y ≤ max s.y e.y ∧
      min s.z e.z ≤ p.z ∧ p.z ≤ max s.z e.z := by
  have hx : min s.x e.x ≤ max s.x e.x := min_le_max
  have hy : min s.y e.y ≤ max s.y e.y := min_le_max
  have hz : min s.z e.z ≤ max s.z e.z := min_le_max
  simp only [digAreaPositions, List.mem_flatMap, List.mem_map, List.mem_range]
  constructor
  · rintro ⟨iy, hiy, ix, hix, iz, hiz, rfl⟩
    refine ⟨?_, ?_, ?_, ?_, ?_, ?_⟩ <;> simp <;> omega
  · rintro ⟨h1, h2, h3, h4, h5, h6⟩
    refine ⟨(max s.y e.y - p.y).toNat, by omega, (p.x - min s.x e.x).toNat, by omega,
      (p.z - min s.z e.z).toNat, by omega, ?_⟩
    ext <;> simp <;> omega

/-- The sweep visits exactly `nx × ny × nz` positions. -/
theorem length_digAreaPositions (s e : Position Int) :
    (digAreaPositions s e).length =
      ((max s.y e.y - min s.y e.y).toNat + 1) *
        (((max s.x e.x - min s.x e.x).toNat + 1) *
          ((max s.z e.z - min s.z e.z).toNat + 1)) := by
  have hx : min s.x e.x ≤ max s.x e.x := min_le_max
  have hy : min s.y e.y ≤ max s.y e.y := min_le_max
  have hz : min s.z e.z ≤ max s.z e.z := min_le_max
  simp only [digAreaPositions]
  rw [length_flatMap_const (m := ((max s.x e.x - min s.x e.x).toNat + 1) *
      ((max s.z e.z - min s.z e.z).toNat + 1))]
  · rw [List.length_range]
    congr 1
    omega
  · intro iy _
    rw [length_flatMap_const (m := (max s.z e.z - min s.z e.z).toNat + 1)]
    · rw [List.length_range]
      congr 1
      omega
    · intro ix _
      rw [List.length_map, List.length_range]
      omega

/-- The sweep has no duplicate positions. -/
theorem nodup_digAreaPositions (s e : Position Int) :
    (digAreaPositions s e).Nodup := by
  simp only [digAreaPositions]
  rw [List.nodup_flatMap]
  constructor
  · intro iy _
    rw [List.nodup_flatMap]
    constructor
    · intro ix _
      refine List.Nodup.map ?_ (List.nodup_range _)
      intro a b hab
      simpa using hab
    · refine (List.pairwise_lt_range _).imp ?_
      intro a b hab
      intro q hq hr
      simp only [mem_sweep_row] at hq hr
      omega
  · refine (List.pairwise_lt_range _).imp ?_
    intro a b hab
    intro q hq hr
    simp only [mem_sweep_layer] at hq hr
    omega

/-- Along the sweep, the y-coordinate is non-increasing between consecutive
positions. -/
theorem chain_y_digAreaPositions (s e : Position Int) :
    (digAreaPositions s e).Chain' (fun p q => q.y ≤ p.y) := by
  refine List.Pairwise.chain' ?_
  simp only [digAreaPositions]
  rw [List.pairwise_flatMap]
  constructor
  · intro iy _
    refine pairwise_of_forall_mem ?_
    intro a ha b hb
    simp only [mem_sweep_layer] at ha hb
    omega
  · refine (List.pairwise_lt_range _).imp ?_
    intro a b hab
    intro q hq r hr
    simp only [mem_sweep_layer] at hq hr
    omega

/-- C2: `digArea` enumerates exactly the integer positions of the axis-aligned
box spanned by the two corners — `(maxX-minX+1)×(maxY-minY+1)×(maxZ-minZ+1)`
positions, no duplicates, with the y-coordinate non-increasing across
consecutive enumerated positions (descending-Y sweep). -/
theorem digArea_enumerates_box (s e : Position Int) :
    ((digAreaPositions s e).length =
      ((max s.x e.x - min s.x e.x).toNat + 1) *
        (((max s.y e.y - min s.y e.y).toNat + 1) *
          ((max s.z e.z - min s.z e.z).toNat + 1))) ∧
    (digAreaPositions s e).Nodup ∧
    (∀ p : Position Int, p ∈ digAreaPositions s e ↔
      min s.x e.x ≤ p.x ∧ p.x ≤ max s.x e.x ∧
      min s.y e.y ≤ p.y ∧ p.y ≤ max s.y e.y ∧
      min s.z e.z ≤ p.z ∧ p.z ≤ max s.z e.z) ∧
    (digAreaPositions s e).Chain' (fun p q => q.y ≤ p.y) := by
  refine ⟨?_, nodup_digAreaPositions s e, fun p => mem_digAreaPositions,
    chain_y_digAreaPositions s e⟩
  rw [length_digAreaPositions]
  ring

/-! ## Spatial transform (src/core/bot.ts lines 558-602)

The source samples `Math.sin(yaw)` / `Math.cos(yaw)` and rotates the
`(dx, dz)` plane.  The embedding takes the sampled sine/cosine values as
arguments (`sinYaw`, `cosYaw`); at heading 0 those sampled values are exactly
`0` and `1` (also in IEEE 754), which is the only heading the claim under
verification speaks about.  Coordinates are modelled as `ℚ`. -/

/-- Target computed by `MineflayerBot.navigateRelative` (lines 558-573):
`worldDx = dx*cos - dz*sin`, `worldDz = dx*sin + dz*cos`, added to the
current position with no rounding (continuous movement target). -/
def navigateRelativeTarget (currentPos : Position ℚ) (sinYaw cosYaw : ℚ)
    (dx dy dz : ℚ) : Position ℚ :=
  let worldDx := dx * cosYaw - dz * sinYaw
  let worldDz := dx * sinYaw + dz * cosYaw
  ⟨currentPos.x + worldDx, currentPos.y + dy, currentPos.z + worldDz⟩

/-- Function `MineflayerBot.relativeToAbsolute` (lines 583-602): the same rotation, but
every axis is passed through `Math.floor` to produce block coordinates. -/
def relativeToAbsolute (origin : Position ℚ) (sinYaw cosYaw : ℚ)
    (dx dy dz : ℚ) : Position ℚ :=
  let worldDx := dx * cosYaw - dz * sinYaw
  let worldDz := dx * sinYaw + dz * cosYaw
  ⟨(⌊origin.x + worldDx⌋ : ℤ), (⌊origin.y + dy⌋ : ℤ), (⌊origin.z + worldDz⌋ : ℤ)⟩

/-- C9 counterexample: at heading 0, `relativeToAbsolute` does NOT return
`origin + (dx, dy, dz)` exactly — for the fractional origin `x = 1/2` with a
zero offset it returns the floored position `(0, 0, 0)`, not `(1/2, 0, 0)`. -/
theorem relativeToAbsolute_heading0_not_identity :
    relativeToAbsolute ⟨1/2, 0, 0⟩ 0 1 0 0 0 ≠
      (⟨1/2 + 0, 0 + 0, 0 + 0⟩ : Position ℚ) := by
  intro h
  have hx := congrArg Position.x h
  simp only [relativeToAbsolute] at hx
  norm_num at hx

/-- C9 amended: at heading 0 (sampled sine 0, cosine 1) the continuous
`navigateRelative` target is exactly `origin + (dx, dy, dz)`, while the
block-targeting `relativeToAbsolute` returns the componentwise floor
`(⌊origin.x+dx⌋, ⌊origin.y+dy⌋, ⌊origin.z+dz⌋)` of that sum. -/
theorem heading0_transforms (origin : Position ℚ) (dx dy dz : ℚ) :
    navigateRelativeTarget origin 0 1 dx dy dz =
      ⟨origin.x + dx, origin.y + dy, origin.z + dz⟩ ∧
    relativeToAbsolute origin 0 1 dx dy dz =
      ⟨(⌊origin.x + dx⌋ : ℤ), (⌊origin.y + dy⌋ : ℤ), (⌊origin.z + dz⌋ : ℤ)⟩ := by
  constructor
  · simp [navigateRelativeTarget]
  · simp [relativeToAbsolute]

/-! ## Connection supervision (src/core/bot.ts lines 51-224)

State machine behind `MineflayerBot`: the `bot` reference, the
`isConnected` / `isConnecting` flags and the reconnect-attempt counter,
together with the synchronous effects of `setupBot`, `connect`,
`handleDisconnect`, the `spawn` handler and `disconnect`. -/

/-- Supervision-relevant mutable state of a `MineflayerBot` instance. -/
@[ext]
structure BotState where
  botPresent : Bool
  isConnected : Bool
  isConnecting : Bool
  reconnectAttempts : Nat
  entityPosition : Position ℚ
  yaw : ℚ
deriving DecidableEq, Repr

/-- Constant `private readonly maxReconnectAttempts: number = 3` (line 56). -/
def maxReconnectAttempts : Nat := 3

/-- JSON-RPC messages written by the supervisor. -/
inductive SupervisorMessage
| reconnecting (attempt maxAttempts : Nat)
| maxAttemptsReached (attempts : Nat)
deriving DecidableEq, Repr

/-- Is a message the terminal "Max reconnection attempts reached" error
(JSON-RPC error code -32003, lines 174-177)? -/
def SupervisorMessage.isTerminalError : SupervisorMessage → Bool
  | .maxAttemptsReached _ => true
  | _ => false

/-- Result of one `handleDisconnect` invocation: the updated state, the delay
of the reconnect `setTimeout` if one was scheduled, and the JSON-RPC
messages written. -/
structure DisconnectStep where
  state : BotState
  scheduledDelayMs : Option Nat
  messages : List SupervisorMessage
deriving DecidableEq, Repr

/-- Method `MineflayerBot.handleDisconnect` (lines 154-178): clear `isConnected`;
if not connecting and the attempt counter is below the maximum, increment the
counter, emit a `bot.reconnecting` notification and schedule `setupBot` after
`5000 * reconnectAttempts` ms; otherwise emit the terminal
"Max reconnection attempts reached" JSON-RPC error and schedule nothing. -/
def handleDisconnect (s : BotState) : DisconnectStep :=
  let s1 := { s with isConnected := false }
  if s1.isConnecting = false ∧ s1.reconnectAttempts < maxReconnectAttempts then
    let a := s1.reconnectAttempts + 1
    { state := { s1 with reconnectAttempts := a },
      scheduledDelayMs := some (5000 * a),
      messages := [.reconnecting a maxReconnectAttempts] }
  else
    { state := s1, scheduledDelayMs := none,
      messages := [.maxAttemptsReached s1.reconnectAttempts] }

/-- The `spawn` handler (lines 114-121): mark connected, clear the connecting
flag and reset the attempt counter. -/
def spawnEvent (s : BotState) : BotState :=
  { s with isConnected := true, isConnecting := false, reconnectAttempts := 0 }

/-- Trace of a run in which every (re)connect attempt fails: each failed
attempt raises one `end` event (the handlers clear `isConnecting` before
calling `handleDisconnect`), so `handleDisconnect` fires again until it stops
scheduling.  `fuel` bounds the recursion; 4 steps suffice from a fresh
counter. -/
def failedReconnectTrace : Nat → BotState → List DisconnectStep
  | 0, _ => []
  | fuel + 1, s =>
    let r := handleDisconnect { s with isConnecting := false }
    match r.scheduledDelayMs with
    | none => [r]
    | some _ => r :: failedReconnectTrace fuel r.state

/-- C5: on an unintentional disconnect with the counter below `maxAttempts`,
exactly one reconnect is scheduled after `5000 × attemptNumber` ms and the
counter is incremented; with the counter exhausted, nothing is scheduled and
the terminal error is emitted; and across a run of consecutive failed
attempts starting from a fresh counter, exactly three reconnects (5s, 10s,
15s) are scheduled and the terminal status error is emitted exactly once, at
the end. -/
theorem reconnect_backoff_policy (s : BotState) (hconn : s.isConnecting = false) :
    (s.reconnectAttempts < maxReconnectAttempts →
      (handleDisconnect s).scheduledDelayMs = some (5000 * (s.reconnectAttempts + 1)) ∧
      (handleDisconnect s).state.reconnectAttempts = s.reconnectAttempts + 1 ∧
      (handleDisconnect s).messages =
        [.reconnecting (s.reconnectAttempts + 1) maxReconnectAttempts]) ∧
    (maxReconnectAttempts ≤ s.reconnectAttempts →
      (handleDisconnect s).scheduledDelayMs = none ∧
      (handleDisconnect s).messages = [.maxAttemptsReached s.reconnectAttempts]) ∧
    (s.reconnectAttempts = 0 → ∀ fuel : Nat,
      (failedReconnectTrace (fuel + 4) s).map (fun r => r.scheduledDelayMs) =
        [some 5000, some 10000, some 15000, none] ∧
      ((failedReconnectTrace (fuel + 4) s).flatMap (fun r => r.messages)).countP
          (fun m => m.isTerminalError) = 1) := by
  refine ⟨?_, ?_, ?_⟩
  · intro hlt
    simp [handleDisconnect, hconn, hlt]
  · intro hge
    have : ¬ s.reconnectAttempts < maxReconnectAttempts := by omega
    simp [handleDisconnect, hconn, this]
  · intro h0 fuel
    simp [failedReconnectTrace, handleDisconnect, hconn, h0, maxReconnectAttempts,
      SupervisorMessage.isTerminalError]

/-- Witness for C5 at a concrete fresh state. -/
theorem reconnect_backoff_policy_witness :
    (failedReconnectTrace 4 ⟨true, true, false, 0, ⟨0, 64, 0⟩, 0⟩).map
        (fun r => r.scheduledDelayMs) = [some 5000, some 10000, some 15000, none] ∧
    ((failedReconnectTrace 4 ⟨true, true, false, 0, ⟨0, 64, 0⟩, 0⟩).flatMap
        (fun r => r.messages)).countP (fun m => m.isTerminalError) = 1 :=
  (reconnect_backoff_policy ⟨true, true, false, 0, ⟨0, 64, 0⟩, 0⟩ rfl).2.2 rfl 0

/-- Method `MineflayerBot.disconnect` (lines 219-224): if a bot exists, call
`bot.end()` and null the reference.  `bot.end()` raises the bot's `end`
event, whose handler (lines 123-127) clears `isConnecting` and calls
`handleDisconnect` — there is no flag distinguishing an intentional
disconnect. -/
def disconnectCall (s : BotState) : DisconnectStep :=
  if s.botPresent then
    handleDisconnect { s with botPresent := false, isConnecting := false }
  else
    { state := s, scheduledDelayMs := none, messages := [] }

/-- C6 counterexample: calling `disconnect()` on a healthy connected facade
(fresh attempt counter) schedules an automatic reconnect after 5 s — the
facade does not stay disconnected. -/
theorem disconnect_schedules_reconnect :
    (disconnectCall ⟨true, true, false, 0, ⟨0, 64, 0⟩, 0⟩).scheduledDelayMs =
      some 5000 := by
  decide

/-- C6 amended: an explicit `disconnect()` triggers the same
`handleDisconnect` path as an unintentional disconnect, so an automatic
reconnect is scheduled exactly when the attempt counter is still below the
maximum. -/
theorem disconnect_reconnect_behaviour (s : BotState) (h : s.botPresent = true) :
    (disconnectCall s).scheduledDelayMs =
      (if s.reconnectAttempts < maxReconnectAttempts
        then some (5000 * (s.reconnectAttempts + 1)) else none) := by
  by_cases hlt : s.reconnectAttempts < maxReconnectAttempts <;>
    simp [disconnectCall, handleDisconnect, h, hlt]

/-- Witness for C6 amended at a concrete connected state. -/
theorem disconnect_reconnect_behaviour_witness :
    (disconnectCall ⟨true, true, false, 2, ⟨0, 64, 0⟩, 0⟩).scheduledDelayMs =
      (if 2 < maxReconnectAttempts then some (5000 * (2 + 1)) else none) :=
  disconnect_reconnect_behaviour ⟨true, true, false, 2, ⟨0, 64, 0⟩, 0⟩ rfl

/-- Teardown/creation actions performed by `setupBot`. -/
inductive BotAction
| endOldBot
| createBot
deriving DecidableEq, Repr

/-- Synchronous outcome of a `connect`/`setupBot` call. -/
inductive ConnectOutcome
| earlyReturn
| rejected (msg : String)
| started
deriving DecidableEq, Repr

/-- Result of the synchronous phase of `connect`/`setupBot`. -/
structure ConnectStep where
  state : BotState
  outcome : ConnectOutcome
  actions : List BotAction
deriving DecidableEq, Repr

/-- Synchronous phase of `MineflayerBot.setupBot` (lines 80-137): the promise
executor runs immediately — if `isConnecting` is already set it rejects with
"Already connecting"; otherwise it sets `isConnecting`, ends and nulls any
existing bot, and creates the new bot (resolution then waits on `spawn`). -/
def setupBotSync (s : BotState) : ConnectStep :=
  if s.isConnecting then
    { state := s, outcome := .rejected "Already connecting", actions := [] }
  else
    let s1 := { s with isConnecting := true }
    if s1.botPresent then
      { state := { s1 with botPresent := true },
        outcome := .started, actions := [.endOldBot, .createBot] }
    else
      { state := { s1 with botPresent := true },
        outcome := .started, actions := [.createBot] }

/-- Method `MineflayerBot.connect` (lines 66-78): no-op while `isConnecting`;
otherwise set `isConnecting`, store the params, await `setupBot()`, and clear
`isConnecting` in the `finally`.  Because `connect` sets the flag *before*
`setupBot` checks it, the executor immediately rejects. -/
def connectCall (s : BotState) : ConnectStep :=
  if s.isConnecting then
    { state := s, outcome := .earlyReturn, actions := [] }
  else
    let r := setupBotSync { s with isConnecting := true }
    { r with state := { r.state with isConnecting := false } }

/-- C7: evaluation at the failing input.  A `connect()` call issued when no
attempt is in flight (fresh disconnected facade) does NOT initiate a
connection attempt: it rejects with "Already connecting", performs no
teardown/creation action, and leaves the state unchanged. -/
theorem connect_never_initiates :
    connectCall ⟨false, false, false, 0, ⟨0, 64, 0⟩, 0⟩ =
      { state := ⟨false, false, false, 0, ⟨0, 64, 0⟩, 0⟩,
        outcome := .rejected "Already connecting", actions := [] } := by
  rfl

/-! ## Response contract and the Not-connected guards -/

/-- One display segment of a tool response (`{type, text}`). -/
structure ContentItem where
  type : String
  text : String
deriving DecidableEq, Repr

/-- Type `ToolResponse` — `{content, isError?}`; `isError = true` marks a
caller-visible failure. -/
structure ToolResponse where
  content : List ContentItem
  isError : Bool
deriving DecidableEq, Repr

/-- The response object thrown by `MineflayerBot.wrapError` (lines 1144-1166):
`{content: [{type: "text", text: message}], isError: true}`. -/
def wrapErrorResponse (msg : String) : ToolResponse :=
  { content := [{ type := "text", text := msg }], isError := true }

/-- The facade operations of `MineflayerBot` (every public read/write method
of src/core/bot.ts that guards on `this.bot`). -/
inductive FacadeOp
| chatOp | getPosition | getHealth | getInventory | getPlayers | navigateTo
| digBlockOp | digAreaOp | placeBlockOp | followPlayer | attackEntityOp
| getEntitiesNearby | getBlocksNearby | getHealthStatus | getWeather
| navigateRelativeOp | digBlockRelativeOp | digAreaRelativeOp | blockAtOp
| findBlocksOp | getEquipmentDestSlot | canSeeEntity | craftItemOp
| equipItemOp | dropItemOp | openContainerOp | closeContainer | getRecipe
| listAvailableRecipes | canCraft | smeltItemOp | depositItemOp
| withdrawItemOp
deriving DecidableEq, Repr

/-- What a facade call produces when the underlying connection is down. -/
inductive OpOutcome
| errorResponse (r : ToolResponse)
| thrownError (msg : String)
| nullValue
| falseValue
| emptyList
| silentReturn
deriving DecidableEq, Repr

/-- Is an outcome a failure classified as Not-connected? -/
def OpOutcome.isNotConnectedFailure : OpOutcome → Bool
  | .errorResponse r => r == wrapErrorResponse "Not connected"
  | .thrownError m => m == "Not connected"
  | _ => false

/-- State effect of `wrapError` (lines 1144-1154): with no bot and no connect
in flight it fires `this.connect(...)` (ignoring the rejection) before
throwing the error response. -/
def wrapErrorState (s : BotState) : BotState :=
  if s.botPresent = false ∧ s.isConnecting = false then (connectCall s).state else s

/-- Method `wrapError` leaves the supervision state unchanged: the implicit
`connect` it fires rejects synchronously in `setupBot` ("Already
connecting") and its `finally` restores `isConnecting`. -/
theorem wrapErrorState_eq (s : BotState) : wrapErrorState s = s := by
  obtain ⟨b, c, cg, n, p, y⟩ := s
  cases b <;> cases cg <;> rfl

/-- Behaviour of each facade operation invoked while the underlying
connection is down (`this.bot === null`), read off the guard clause at the
top of each method of src/core/bot.ts: most call `wrapError("Not
connected")`; `digBlockRelative`/`digAreaRelative` throw a plain
`Error("Not connected")`; `getPosition` and `getRecipe` return `null`,
`canSeeEntity` and `canCraft` return `false`, `listAvailableRecipes` returns
`[]`, and `closeContainer` returns silently. -/
def runDisconnectedOp (op : FacadeOp) (s : BotState) : OpOutcome × BotState :=
  match op with
  | .getPosition => (.nullValue, s)
  | .canSeeEntity => (.falseValue, s)
  | .closeContainer => (.silentReturn, s)
  | .getRecipe => (.nullValue, s)
  | .listAvailableRecipes => (.emptyList, s)
  | .canCraft => (.falseValue, s)
  | .digBlockRelativeOp => (.thrownError "Not connected", s)
  | .digAreaRelativeOp => (.thrownError "Not connected", s)
  | _ => (.errorResponse (wrapErrorResponse "Not connected"), wrapErrorState s)

/-- The facade operations that do NOT fail when disconnected (they return a
default value instead). -/
def defaultReturningOps : List FacadeOp :=
  [.getPosition, .canSeeEntity, .closeContainer, .getRecipe,
   .listAvailableRecipes, .canCraft]

/-- C3 counterexample: `getPosition()` invoked while disconnected does not
fail with a Not-connected condition — it returns `null`. -/
theorem getPosition_disconnected_returns_null :
    runDisconnectedOp .getPosition ⟨false, false, false, 0, ⟨0, 64, 0⟩, 0⟩ =
      (.nullValue, ⟨false, false, false, 0, ⟨0, 64, 0⟩, 0⟩) ∧
    (runDisconnectedOp .getPosition
        ⟨false, false, false, 0, ⟨0, 64, 0⟩, 0⟩).1.isNotConnectedFailure = false := by
  exact ⟨rfl, rfl⟩

/-- C3 amended: every facade operation invoked while disconnected leaves the
agent state (position, heading, connected flag, attempt counter — indeed the
whole state) unchanged, and every operation other than the six
default-returning accessors (`getPosition`, `canSeeEntity`,
`closeContainer`, `getRecipe`, `listAvailableRecipes`, `canCraft`) fails
with a Not-connected condition. -/
theorem disconnected_ops_fail_not_connected (op : FacadeOp) (s : BotState)
    (hb : s.botPresent = false) :
    (runDisconnectedOp op s).2 = s ∧
    (op ∉ defaultReturningOps →
      (runDisconnectedOp op s).1.isNotConnectedFailure = true) := by
  constructor
  · cases op <;> simp [runDisconnectedOp, wrapErrorState_eq]
  · intro hop
    cases op <;>
      simp_all [runDisconnectedOp, defaultReturningOps,
        OpOutcome.isNotConnectedFailure]

/-- Witness for C3 amended: `chat` while disconnected. -/
theorem disconnected_ops_fail_not_connected_witness :
    (runDisconnectedOp .chatOp ⟨false, false, false, 0, ⟨0, 64, 0⟩, 0⟩).2 =
      ⟨false, false, false, 0, ⟨0, 64, 0⟩, 0⟩ ∧
    (FacadeOp.chatOp ∉ defaultReturningOps →
      (runDisconnectedOp .chatOp
        ⟨false, false, false, 0, ⟨0, 64, 0⟩, 0⟩).1.isNotConnectedFailure = true) :=
  disconnected_ops_fail_not_connected .chatOp ⟨false, false, false, 0, ⟨0, 64, 0⟩, 0⟩ rfl

/-! ## Request router (src/core/server.ts) -/

/-- The tool catalog dispatched by the `CallToolRequestSchema` handler's
switch (src/core/server.ts lines 994-1129). -/
def minecraftToolNames : List String :=
  ["chat", "navigate_to", "navigate_relative", "dig_block",
   "dig_block_relative", "dig_area", "dig_area_relative", "place_block",
   "follow_player", "attack_entity", "inspect_block", "find_blocks",
   "inspect_inventory", "find_entities", "check_path", "craft_item",
   "smelt_item", "equip_item", "deposit_item", "withdraw_item"]

/-- The resource catalog of the `ReadResourceRequestSchema` handler's switch
(lines 901-943). -/
def minecraftResourceUris : List String :=
  ["minecraft://players", "minecraft://position", "minecraft://blocks/nearby",
   "minecraft://entities/nearby", "minecraft://inventory",
   "minecraft://health", "minecraft://weather"]

/-- What the router hands back to the RPC layer: either an ordinary response
object, or a protocol-level error with a numeric code. -/
inductive RouterOutcome
| response (r : ToolResponse)
| protocolError (code : Int) (message : String)
deriving DecidableEq, Repr

/-- One content block of a resource read. -/
structure ResourceContent where
  uri : String
  mimeType : String
  text : String
deriving DecidableEq, Repr

/-- What the resource router hands back. -/
inductive ResourceOutcome
| contents (cs : List ResourceContent)
| protocolError (code : Int) (message : String)
deriving DecidableEq, Repr

/-- Response payload for a tool call missing its `arguments` (lines
1117-1127... the early `if (!args)` branch of the handler). -/
def noArgumentsResponse : ToolResponse :=
  { content := [{ type := "text", text := "No arguments provided" }], isError := true }

/-- Response payload of the switch's `default` case for an unknown tool. -/
def unknownToolResponse (name : String) : ToolResponse :=
  { content := [{ type := "text", text := "Unknown tool: " ++ name }], isError := true }

/-- The `CallToolRequestSchema` handler (lines 988-1135), structural paths:
missing `arguments` returns a `{content, isError: true}` payload ("No
arguments provided"); a name outside the switch falls to the `default` case
returning a `{content, isError: true}` payload ("Unknown tool: ...").  Known
tools dispatch to the tool handler (`dispatch`). -/
def callToolRoute (dispatch : String → ToolResponse) (name : String)
    (hasArguments : Bool) : RouterOutcome :=
  if hasArguments = false then
    .response noArgumentsResponse
  else if name ∈ minecraftToolNames then
    .response (dispatch name)
  else
    .response (unknownToolResponse name)

/-- JSON body returned for an unknown resource URI:
`JSON.stringify({error: ..., isError: true})` (lines 931-943). -/
def unknownUriJson (uri : String) : String :=
  "\x7b\"error\":\"Unknown resource URI: " ++ uri ++ "\",\"isError\":true\x7d"

/-- Contents payload for an unknown resource URI. -/
def unknownUriContents (uri : String) : List ResourceContent :=
  [{ uri := uri, mimeType := "application/json", text := unknownUriJson uri }]

/-- The `ReadResourceRequestSchema` handler (lines 901-990): known URIs
dispatch to the resource handler; an unknown URI returns an ordinary
contents payload whose JSON text embeds the error. -/
def readResourceRoute (dispatch : String → List ResourceContent)
    (uri : String) : ResourceOutcome :=
  if uri ∈ minecraftResourceUris then
    .contents (dispatch uri)
  else
    .contents (unknownUriContents uri)

/-- C4 counterexample: an unknown tool name produces an ordinary content
payload flagged `isError: true` — not a protocol-level error response. -/
theorem unknown_tool_is_content_payload :
    callToolRoute (fun _ => { content := [], isError := false })
        "definitely_not_a_tool" true =
      .response (unknownToolResponse "definitely_not_a_tool") ∧
    (unknownToolResponse "definitely_not_a_tool").isError = true ∧
    ∀ code msg,
      callToolRoute (fun _ => { content := [], isError := false })
          "definitely_not_a_tool" true ≠ .protocolError code msg := by
  refine ⟨by decide, rfl, fun code msg h => ?_⟩
  rw [show callToolRoute (fun _ => { content := [], isError := false })
      "definitely_not_a_tool" true =
      .response (unknownToolResponse "definitely_not_a_tool") from by decide] at h
  exact RouterOutcome.noConfusion h

/-- C4 amended: every structural failure is reported as an ordinary payload,
never as a protocol-level error: unknown tool names and missing arguments
yield `{content, isError: true}` responses, and unknown resource URIs yield
a contents payload embedding the error text in its JSON body. -/
theorem structural_failures_are_payloads :
    (∀ (dispatch : String → ToolResponse) (name : String),
      name ∉ minecraftToolNames →
      callToolRoute dispatch name true = .response (unknownToolResponse name)) ∧
    (∀ (dispatch : String → ToolResponse) (name : String),
      callToolRoute dispatch name false = .response noArgumentsResponse) ∧
    (∀ (dispatch : String → List ResourceContent) (uri : String),
      uri ∉ minecraftResourceUris →
      readResourceRoute dispatch uri = .contents (unknownUriContents uri)) := by
  refine ⟨fun dispatch name hname => ?_, fun dispatch name => ?_,
    fun dispatch uri huri => ?_⟩
  · simp [callToolRoute, hname]
  · simp [callToolRoute]
  · simp [readResourceRoute, huri]

/-- Witness for C4 amended at concrete unknown inputs. -/
theorem structural_failures_are_payloads_witness :
    callToolRoute (fun _ => { content := [], isError := false }) "mine_bitcoin" true =
      .response (unknownToolResponse "mine_bitcoin") ∧
    readResourceRoute (fun _ => []) "minecraft://nonsense" =
      .contents (unknownUriContents "minecraft://nonsense") :=
  ⟨structural_failures_are_payloads.1 _ "mine_bitcoin" (by decide),
   structural_failures_are_payloads.2.2 _ "minecraft://nonsense" (by decide)⟩

/-! ## Single-block dig and the area operation engine
(src/core/bot.ts lines 278-337 and 339-445, src/handlers/tools.ts 150-161
and 180-229)

The world is modelled as a map from block positions to block kinds.  The
outcome of one `bot.dig(block)` attempt is part of the block's description;
the three error messages recognised by `digBlock`'s substring tests
("cannot be broken", "cannot dig", "unreachable") are modelled as dedicated
constructors. -/

/-- Failure of one underlying `bot.dig` attempt; the first three
constructors carry the message fragments that `digBlock` recognises as
known cannot-dig errors. -/
inductive DigErr
| cannotBeBroken
| cannotDig
| unreachable
| otherError (msg : String)
deriving DecidableEq, Repr

/-- Test performed at src/core/bot.ts lines 320-324: does the error message
contain one of the known fragments? -/
def DigErr.isKnownCannotDig : DigErr → Bool
  | .otherError _ => false
  | _ => true

/-- Message carried by the error (the recognised fragment, or the raw
message of an unrecognised error). -/
def DigErr.message : DigErr → String
  | .cannotBeBroken => "cannot be broken"
  | .cannotDig => "cannot dig"
  | .unreachable => "unreachable"
  | .otherError m => m

/-- What `blockAt` reports at one position: no block (`null`), air, or a
solid block with a name, a hardness, and the outcome a dig attempt on it
would have (`none` = the dig succeeds and removes it). -/
inductive BlockKind
| absent
| air
| solid (name : String) (hardness : Int) (digOutcome : Option DigErr)
deriving DecidableEq, Repr

/-- World state: the block seen at each position. -/
structure World where
  blockAt : Position Int → BlockKind

/-- Effect of a successful dig: the position becomes air. -/
def World.setAir (w : World) (p : Position Int) : World :=
  ⟨fun q => if q = p then .air else w.blockAt q⟩

/-- Result of `MineflayerBot.digBlock`'s dig loop. -/
inductive DigBlockResult
| completed (w : World)
| wrapped (msg : String)
| outOfFuel (w : World)

/-- Dig loop of `MineflayerBot.digBlock` (lines 294-336): re-read the block;
finish if it is gone or air; finish (with a warning) if it is indestructible
(`hardness < 0`); attempt the dig — a failure whose message contains a known
cannot-dig fragment finishes with a warning, any other failure is rethrown
via `wrapError`; after a successful dig, loop.  `fuel` bounds the loop (two
steps suffice once a dig succeeds, since the block is then air). -/
def digBlockLoop : Nat → World → Position Int → DigBlockResult
  | 0, w, _ => .outOfFuel w
  | fuel + 1, w, p =>
    match w.blockAt p with
    | .absent => .completed w
    | .air => .completed w
    | .solid _ hardness digOutcome =>
      if hardness < 0 then .completed w
      else
        match digOutcome with
        | some e => if e.isKnownCannotDig then .completed w else .wrapped e.message
        | none => digBlockLoop fuel (w.setAir p) p

/-- Success text of `MinecraftToolHandler.handleDigBlock` (lines 150-161). -/
def digSuccessText (p : Position Int) : String :=
  "Dug block at " ++ toString p.x ++ ", " ++ toString p.y ++ ", " ++ toString p.z

/-- Success response of `handleDigBlock`. -/
def digSuccessResponse (p : Position Int) : ToolResponse :=
  { content := [{ type := "text", text := digSuccessText p }], isError := false }

/-- Behaviour of `MinecraftToolHandler.handleDigBlock`: awaits `digBlock` and
reports the block as dug; a response thrown by `wrapError` propagates (the
handler has no catch) and surfaces as a failure upstream.  `none` stands for
exhausted loop fuel (unbounded looping in the source). -/
def handleDigBlock (fuel : Nat) (w : World) (p : Position Int) :
    Option (Except ToolResponse ToolResponse) :=
  match digBlockLoop fuel w p with
  | .completed _ => some (.ok (digSuccessResponse p))
  | .wrapped msg => some (.error (wrapErrorResponse msg))
  | .outOfFuel _ => none

/-- One progress emission `(progress, blocksDug, totalBlocks)`.  The source
computes `progress = Math.floor(blocksDug / totalBlocks * 100)`; it is
modelled as `blocksDug * 100 / totalBlocks` in exact arithmetic. -/
structure ProgressEmission where
  progress : Nat
  blocksDug : Nat
  totalBlocks : Nat
deriving DecidableEq, Repr

/-- Running state of the `digArea` sweep: the world, the `blocksDug`
counter, the `lastProgressUpdate` watermark and the emissions made so far. -/
structure AreaSweepState where
  world : World
  blocksDug : Nat
  lastProgressUpdate : Nat
  emissions : List ProgressEmission

/-- One iteration of the `digArea` sweep body (lines 390-436), without the
disconnect check: skip absent/air blocks while counting them; otherwise dig
via `digBlock` — on normal return count the block and, if a callback is
installed and at least 500 ms elapsed since the watermark (`time i` is the
clock at iteration `i`), emit a throttled progress update; a response thrown
by `digBlock` is caught, logged and skipped without counting. -/
def sweepStep (time : Nat → Nat) (hasCallback : Bool) (digFuel total i : Nat)
    (p : Position Int) (st : AreaSweepState) : AreaSweepState :=
  match st.world.blockAt p with
  | .absent => { st with blocksDug := st.blocksDug + 1 }
  | .air => { st with blocksDug := st.blocksDug + 1 }
  | .solid _ _ _ =>
    match digBlockLoop digFuel st.world p with
    | .completed w2 =>
      let d := st.blocksDug + 1
      if hasCallback ∧ 500 ≤ time i - st.lastProgressUpdate then
        { world := w2, blocksDug := d, lastProgressUpdate := time i,
          emissions := st.emissions ++ [⟨d * 100 / total, d, total⟩] }
      else
        { world := w2, blocksDug := d,
          lastProgressUpdate := st.lastProgressUpdate, emissions := st.emissions }
    | .wrapped _ => st
    | .outOfFuel _ => st

/-- The `digArea` sweep loop (lines 390-436): at each iteration boundary the
`disconnected` flag (set by the one-shot `end` listener; modelled by
`disc i`) is checked first — if set, the job stops and `wrapError
("Disconnected while digging area")` is thrown; otherwise the iteration body
runs. -/
def digAreaLoop (time : Nat → Nat) (disc : Nat → Bool) (hasCallback : Bool)
    (digFuel total : Nat) :
    List (Position Int) → Nat → AreaSweepState → AreaSweepState × Option String
  | [], _, st => (st, none)
  | p :: rest, i, st =>
    if disc i then (st, some "Disconnected while digging area")
    else
      digAreaLoop time disc hasCallback digFuel total rest (i + 1)
        (sweepStep time hasCallback digFuel total i p st)

/-- Result of one `digArea` call: the emissions made, the final counters,
the thrown error message (if the sweep was aborted), and whether the
one-shot disconnect listener was removed by the `finally` (lines 441-444;
modelled for exits on which the facade still holds its bot instance). -/
structure DigAreaResult where
  emissions : List ProgressEmission
  blocksDug : Nat
  totalBlocks : Nat
  thrown : Option String
  listenerRemoved : Bool

/-- Method `MineflayerBot.digArea` (lines 339-445): enumerate the sweep positions,
install the one-shot `end` listener, run the sweep from a zero counter and
watermark `t0`, and on normal completion emit the final
`(100, blocksDug, totalBlocks)` progress callback; the `finally` always
removes the listener. -/
def digArea (time : Nat → Nat) (disc : Nat → Bool) (hasCallback : Bool)
    (digFuel : Nat) (w : World) (c1 c2 : Position Int) (t0 : Nat) : DigAreaResult :=
  let positions := digAreaPositions c1 c2
  let total := positions.length
  let r := digAreaLoop time disc hasCallback digFuel total positions 0
    { world := w, blocksDug := 0, lastProgressUpdate := t0, emissions := [] }
  match r.2 with
  | some msg =>
    { emissions := r.1.emissions, blocksDug := r.1.blocksDug, totalBlocks := total,
      thrown := some msg, listenerRemoved := true }
  | none =>
    { emissions :=
        if hasCallback then r.1.emissions ++ [⟨100, r.1.blocksDug, total⟩]
        else r.1.emissions,
      blocksDug := r.1.blocksDug, totalBlocks := total,
      thrown := none, listenerRemoved := true }

/-- Success text of `MinecraftToolHandler.handleDigArea` (lines 199-207). -/
def digAreaSuccessText (c1 c2 : Position Int) (dug : Nat) : String :=
  "Successfully completed digging area from (" ++ toString c1.x ++ ", " ++
    toString c1.y ++ ", " ++ toString c1.z ++ ") to (" ++ toString c2.x ++
    ", " ++ toString c2.y ++ ", " ++ toString c2.z ++ "). Dug " ++
    toString dug ++ " blocks."

/-- Failure text of `handleDigArea` (lines 208-228): the thrown value is the
response object from `wrapError`, which is not an `Error`, so
`String(error)` yields "[object Object]"; the progress suffix is appended
only when the captured `totalBlocks` is positive, i.e. only when at least
one progress callback had fired. -/
def digAreaFailureText (captured : ProgressEmission) : String :=
  "Failed to dig area: [object Object]" ++
    (if 0 < captured.totalBlocks then
      "\n" ++ "Progress before error: " ++ toString captured.progress ++
        "% (" ++ toString captured.blocksDug ++ "/" ++
        toString captured.totalBlocks ++ " blocks)"
    else "")

/-- Failure payload of `handleDigArea`. -/
def digAreaFailureResponse (captured : ProgressEmission) : ToolResponse :=
  { content := [{ type := "text", text := digAreaFailureText captured }], isError := true }

/-- Method `MinecraftToolHandler.handleDigArea` (lines 180-229): runs `digArea`
with a callback recording the latest `(progress, blocksDug, totalBlocks)`
triple (initially all zero); success reports the captured count, a thrown
error is caught and shaped into an `isError` payload. -/
def handleDigArea (time : Nat → Nat) (disc : Nat → Bool) (digFuel : Nat)
    (w : World) (c1 c2 : Position Int) (t0 : Nat) : ToolResponse :=
  let r := digArea time disc true digFuel w c1 c2 t0
  let captured := r.emissions.getLast?.getD ⟨0, 0, 0⟩
  match r.thrown with
  | none =>
    { content := [{ type := "text", text := digAreaSuccessText c1 c2 captured.blocksDug }], isError := false }
  | some _ => digAreaFailureResponse captured

/-- Equation: a gone block finishes the dig loop at once. -/
theorem digBlockLoop_absent {w : World} {p : Position Int} (fuel : Nat)
    (h : w.blockAt p = .absent) : digBlockLoop (fuel + 1) w p = .completed w := by
  simp [digBlockLoop, h]

/-- Equation: an air block finishes the dig loop at once. -/
theorem digBlockLoop_air {w : World} {p : Position Int} (fuel : Nat)
    (h : w.blockAt p = .air) : digBlockLoop (fuel + 1) w p = .completed w := by
  simp [digBlockLoop, h]

/-- Equation: an indestructible block (`hardness < 0`) finishes the loop
normally without a dig attempt. -/
theorem digBlockLoop_indestructible {w : World} {p : Position Int}
    {name : String} {hard : Int} {dout : Option DigErr} (fuel : Nat)
    (h : w.blockAt p = .solid name hard dout) (hh : hard < 0) :
    digBlockLoop (fuel + 1) w p = .completed w := by
  simp [digBlockLoop, h, hh]

/-- Equation: a dig failure with a recognised cannot-dig message finishes
the loop normally. -/
theorem digBlockLoop_known {w : World} {p : Position Int} {name : String}
    {hard : Int} {e : DigErr} (fuel : Nat)
    (h : w.blockAt p = .solid name hard (some e)) (hh : ¬ hard < 0)
    (hk : e.isKnownCannotDig = true) :
    digBlockLoop (fuel + 1) w p = .completed w := by
  simp [digBlockLoop, h, hh, hk]

/-- Equation: any other dig failure is rethrown via `wrapError`. -/
theorem digBlockLoop_other {w : World} {p : Position Int} {name : String}
    {hard : Int} {m : String} (fuel : Nat)
    (h : w.blockAt p = .solid name hard (some (.otherError m)))
    (hh : ¬ hard < 0) : digBlockLoop (fuel + 1) w p = .wrapped m := by
  simp [digBlockLoop, h, hh, DigErr.isKnownCannotDig, DigErr.message]

/-- Equation: a successful dig removes the block and the loop then finishes
on the next iteration. -/
theorem digBlockLoop_success {w : World} {p : Position Int} {name : String}
    {hard : Int} (fuel : Nat)
    (h : w.blockAt p = .solid name hard none) (hh : ¬ hard < 0) :
    digBlockLoop (fuel + 2) w p = .completed (w.setAir p) := by
  have h2 : (w.setAir p).blockAt p = .air := by simp [World.setAir]
  show digBlockLoop (fuel + 1 + 1) w p = _
  simp [digBlockLoop, h, hh, h2]

/-- C10: a single-block dig resolves successfully — and the `dig_block` tool
reports the block as dug — when the target is indestructible
(`hardness < 0`) or the underlying dig fails with a recognised
cannot-dig/cannot-be-broken/unreachable error; only an unrecognised error
produces a failure response. -/
theorem digBlock_tolerates_known_failures (fuel : Nat) (w : World)
    (p : Position Int) (name : String) (hard : Int) (dout : Option DigErr)
    (hb : w.blockAt p = .solid name hard dout) :
    (hard < 0 → handleDigBlock (fuel + 1) w p = some (.ok (digSuccessResponse p))) ∧
    (∀ e, dout = some e → e.isKnownCannotDig = true → ¬ hard < 0 →
      handleDigBlock (fuel + 1) w p = some (.ok (digSuccessResponse p))) ∧
    (∀ m, dout = some (.otherError m) → ¬ hard < 0 →
      handleDigBlock (fuel + 1) w p = some (.error (wrapErrorResponse m))) := by
  refine ⟨fun hh => ?_, fun e he hk hh => ?_, fun m hm hh => ?_⟩
  · rw [handleDigBlock, digBlockLoop_indestructible fuel hb hh]
  · subst he
    rw [handleDigBlock, digBlockLoop_known fuel hb hh hk]
  · subst hm
    rw [handleDigBlock, digBlockLoop_other fuel hb hh]

/-- World in which every position holds bedrock. -/
def bedrockWorld : World := ⟨fun _ => .solid "bedrock" (-1) none⟩

/-- Witness for C10: digging bedrock reports success. -/
theorem digBlock_tolerates_known_failures_witness :
    handleDigBlock 1 bedrockWorld ⟨0, 0, 0⟩ =
      some (.ok (digSuccessResponse ⟨0, 0, 0⟩)) :=
  (digBlock_tolerates_known_failures 0 bedrockWorld ⟨0, 0, 0⟩ "bedrock" (-1)
    none rfl).1 (by norm_num)

/-- Invariant carried through the sweep: the emissions so far are
non-decreasing in `blocksDug` and all are bounded by the current counter. -/
def emissionsInv (st : AreaSweepState) : Prop :=
  st.emissions.Chain' (fun a b => a.blocksDug ≤ b.blocksDug) ∧
  ∀ e ∈ st.emissions, e.blocksDug ≤ st.blocksDug

/-- One sweep iteration preserves the invariant and never decreases the
counter. -/
theorem sweepStep_inv (time : Nat → Nat) (hasCb : Bool) (df total i : Nat)
    (p : Position Int) (st : AreaSweepState) (h : emissionsInv st) :
    emissionsInv (sweepStep time hasCb df total i p st) ∧
    st.blocksDug ≤ (sweepStep time hasCb df total i p st).blocksDug := by
  obtain ⟨hc, hbd⟩ := h
  cases hblock : st.world.blockAt p with
  | absent =>
    simp only [sweepStep, hblock]
    exact ⟨⟨hc, fun e he => (hbd e he).trans (Nat.le_succ _)⟩, Nat.le_succ _⟩
  | air =>
    simp only [sweepStep, hblock]
    exact ⟨⟨hc, fun e he => (hbd e he).trans (Nat.le_succ _)⟩, Nat.le_succ _⟩
  | solid name hard dout =>
    cases hdig : digBlockLoop df st.world p with
    | completed w2 =>
      simp only [sweepStep, hblock, hdig]
      by_cases hif : hasCb = true ∧ 500 ≤ time i - st.lastProgressUpdate
      · rw [if_pos hif]
        refine ⟨⟨?_, ?_⟩, Nat.le_succ _⟩
        · refine List.chain'_append.mpr ⟨hc, List.chain'_singleton _, ?_⟩
          intro a ha b hb
          simp only [List.head?_cons, Option.mem_def, Option.some.injEq] at hb
          subst hb
          exact (hbd a (List.mem_of_mem_getLast? ha)).trans (Nat.le_succ _)
        · intro e he
          rcases List.mem_append.mp he with h1 | h1
          · exact (hbd e h1).trans (Nat.le_succ _)
          · simp only [List.mem_singleton] at h1
            subst h1
            exact le_refl _
      · rw [if_neg hif]
        exact ⟨⟨hc, fun e he => (hbd e he).trans (Nat.le_succ _)⟩, Nat.le_succ _⟩
    | wrapped m =>
      simp only [sweepStep, hblock, hdig]
      exact ⟨⟨hc, hbd⟩, le_refl _⟩
    | outOfFuel w2 =>
      simp only [sweepStep, hblock, hdig]
      exact ⟨⟨hc, hbd⟩, le_refl _⟩

/-- One sweep iteration increases the counter by at most one. -/
theorem sweepStep_le (time : Nat → Nat) (hasCb : Bool) (df total i : Nat)
    (p : Position Int) (st : AreaSweepState) :
    (sweepStep time hasCb df total i p st).blocksDug ≤ st.blocksDug + 1 := by
  cases hblock : st.world.blockAt p with
  | absent =>
    simp only [sweepStep, hblock]
    exact le_refl _
  | air =>
    simp only [sweepStep, hblock]
    exact le_refl _
  | solid name hard dout =>
    cases hdig : digBlockLoop df st.world p with
    | completed w2 =>
      simp only [sweepStep, hblock, hdig]
      by_cases hif : hasCb = true ∧ 500 ≤ time i - st.lastProgressUpdate
      · rw [if_pos hif]
      · rw [if_neg hif]
    | wrapped m =>
      simp only [sweepStep, hblock, hdig]
      exact Nat.le_succ _
    | outOfFuel w2 =>
      simp only [sweepStep, hblock, hdig]
      exact Nat.le_succ _

/-- The sweep loop preserves the invariant and never decreases the
counter. -/
theorem digAreaLoop_inv (time : Nat → Nat) (disc : Nat → Bool) (hasCb : Bool)
    (df total : Nat) :
    ∀ (ps : List (Position Int)) (i : Nat) (st : AreaSweepState),
      emissionsInv st →
      emissionsInv (digAreaLoop time disc hasCb df total ps i st).1 ∧
      st.blocksDug ≤ (digAreaLoop time disc hasCb df total ps i st).1.blocksDug
  | [], _, st, h => ⟨h, le_refl _⟩
  | p :: rest, i, st, h => by
    rw [digAreaLoop]
    by_cases hd : disc i = true
    · rw [if_pos hd]
      exact ⟨h, le_refl _⟩
    · rw [if_neg hd]
      have hs := sweepStep_inv time hasCb df total i p st h
      have ih := digAreaLoop_inv time disc hasCb df total rest (i + 1)
        (sweepStep time hasCb df total i p st) hs.1
      exact ⟨ih.1, hs.2.trans ih.2⟩

/-- With the disconnect flag never set, the sweep loop completes normally. -/
theorem digAreaLoop_none (time : Nat → Nat) (hasCb : Bool) (df total : Nat) :
    ∀ (ps : List (Position Int)) (i : Nat) (st : AreaSweepState),
      (digAreaLoop time (fun _ => false) hasCb df total ps i st).2 = none
  | [], _, _ => rfl
  | p :: rest, i, st => by
    rw [digAreaLoop]
    simp only [Bool.false_eq_true, if_false]
    exact digAreaLoop_none time hasCb df total rest (i + 1) _

/-- The sweep counter is bounded by the number of remaining positions. -/
theorem digAreaLoop_le (time : Nat → Nat) (disc : Nat → Bool) (hasCb : Bool)
    (df total : Nat) :
    ∀ (ps : List (Position Int)) (i : Nat) (st : AreaSweepState),
      (digAreaLoop time disc hasCb df total ps i st).1.blocksDug ≤
        st.blocksDug + ps.length
  | [], _, st => le_refl _
  | p :: rest, i, st => by
    rw [digAreaLoop]
    by_cases hd : disc i = true
    · rw [if_pos hd]
      simp
    · rw [if_neg hd]
      have ih := digAreaLoop_le time disc hasCb df total rest (i + 1)
        (sweepStep time hasCb df total i p st)
      have hs := sweepStep_le time hasCb df total i p st
      simp only [List.length_cons]
      omega

/-- A world is benign for the sweep when every solid block either digs
successfully, is indestructible, or fails only with a recognised cannot-dig
error (no unrecognised dig errors anywhere). -/
def World.good (w : World) : Prop :=
  ∀ q name hard e, w.blockAt q = .solid name hard (some e) →
    hard < 0 ∨ e.isKnownCannotDig = true

/-- Removing a block preserves benignity. -/
theorem World.good_setAir {w : World} (h : w.good) (p : Position Int) :
    (w.setAir p).good := by
  intro q name hard e hq
  by_cases hqp : q = p
  · simp [World.setAir, hqp] at hq
  · simp only [World.setAir, if_neg hqp] at hq
    exact h q name hard e hq

/-- In a benign world, every sweep iteration counts its position and keeps
the world benign. -/
theorem sweepStep_good (time : Nat → Nat) (hasCb : Bool) (df total i : Nat)
    (p : Position Int) (st : AreaSweepState) (hg : st.world.good) :
    (sweepStep time hasCb (df + 2) total i p st).blocksDug = st.blocksDug + 1 ∧
    (sweepStep time hasCb (df + 2) total i p st).world.good := by
  cases hblock : st.world.blockAt p with
  | absent =>
    simp only [sweepStep, hblock]
    exact ⟨trivial, hg⟩
  | air =>
    simp only [sweepStep, hblock]
    exact ⟨trivial, hg⟩
  | solid name hard dout =>
    by_cases hh : hard < 0
    · have hdig := digBlockLoop_indestructible (w := st.world) (df + 1) hblock hh
      simp only [sweepStep, hblock, hdig]
      by_cases hif : hasCb = true ∧ 500 ≤ time i - st.lastProgressUpdate
      · rw [if_pos hif]
        exact ⟨by simp, hg⟩
      · rw [if_neg hif]
        exact ⟨by simp, hg⟩
    · cases dout with
      | none =>
        have hdig := digBlockLoop_success (w := st.world) df hblock hh
        simp only [sweepStep, hblock, hdig]
        by_cases hif : hasCb = true ∧ 500 ≤ time i - st.lastProgressUpdate
        · rw [if_pos hif]
          exact ⟨by simp, World.good_setAir hg p⟩
        · rw [if_neg hif]
          exact ⟨by simp, World.good_setAir hg p⟩
      | some e =>
        have hk : e.isKnownCannotDig = true := by
          rcases hg p name hard e hblock with h1 | h1
          · exact absurd h1 hh
          · exact h1
        have hdig := digBlockLoop_known (w := st.world) (df + 1) hblock hh hk
        simp only [sweepStep, hblock, hdig]
        by_cases hif : hasCb = true ∧ 500 ≤ time i - st.lastProgressUpdate
        · rw [if_pos hif]
          exact ⟨by simp, hg⟩
        · rw [if_neg hif]
          exact ⟨by simp, hg⟩

/-- In a benign world, a sweep that is never disconnected counts every
position. -/
theorem digAreaLoop_good (time : Nat → Nat) (hasCb : Bool) (df total : Nat) :
    ∀ (ps : List (Position Int)) (i : Nat) (st : AreaSweepState),
      st.world.good →
      (digAreaLoop time (fun _ => false) hasCb (df + 2) total ps i st).1.blocksDug =
        st.blocksDug + ps.length
  | [], _, st, _ => rfl
  | p :: rest, i, st, hg => by
    rw [digAreaLoop]
    simp only [Bool.false_eq_true, if_false]
    have hs := sweepStep_good time hasCb df total i p st hg
    have ih := digAreaLoop_good time hasCb df total rest (i + 1)
      (sweepStep time hasCb (df + 2) total i p st) hs.2
    rw [ih, hs.1, List.length_cons]
    omega

/-- World whose single relevant block always fails with an unrecognised dig
error. -/
def failingDigWorld : World := ⟨fun _ => .solid "stone" 1 (some (.otherError "dig failed"))⟩

/-- C1 counterexample: on a one-block box whose dig fails with an
unrecognised error, `digArea` completes normally (nothing thrown) and its
final emission is `(100, 0, 1)` — `progress` is 100 but `blocksCompleted`
(0) differs from `totalBlocks` (1). -/
theorem digArea_final_emission_undercounts :
    (digArea (fun _ => 0) (fun _ => false) true 2 failingDigWorld
        ⟨0, 0, 0⟩ ⟨0, 0, 0⟩ 0).thrown = none ∧
    (digArea (fun _ => 0) (fun _ => false) true 2 failingDigWorld
        ⟨0, 0, 0⟩ ⟨0, 0, 0⟩ 0).emissions = [⟨100, 0, 1⟩] ∧
    ¬ ((digArea (fun _ => 0) (fun _ => false) true 2 failingDigWorld
        ⟨0, 0, 0⟩ ⟨0, 0, 0⟩ 0).blocksDug =
      (digArea (fun _ => 0) (fun _ => false) true 2 failingDigWorld
        ⟨0, 0, 0⟩ ⟨0, 0, 0⟩ 0).totalBlocks) := by
  refine ⟨rfl, rfl, by decide⟩

/-- C1 amended: across every `digArea` run the emitted `blocksCompleted`
values are monotonically non-decreasing; every run that completes normally
(never disconnected, callback installed) ends with a final emission whose
`progress` is 100 and whose `blocksCompleted` equals the final counter,
itself at most `totalBlocks`; and `blocksCompleted = totalBlocks` holds
whenever no block's dig fails with an unrecognised error. -/
theorem digArea_progress_contract (time : Nat → Nat) (disc : Nat → Bool)
    (hasCb : Bool) (digFuel : Nat) (w : World) (c1 c2 : Position Int) (t0 : Nat) :
    (digArea time disc hasCb digFuel w c1 c2 t0).emissions.Chain'
        (fun a b => a.blocksDug ≤ b.blocksDug) ∧
    ((digArea time (fun _ => false) true digFuel w c1 c2 t0).thrown = none ∧
      (digArea time (fun _ => false) true digFuel w c1 c2 t0).emissions.getLast? =
        some ⟨100, (digArea time (fun _ => false) true digFuel w c1 c2 t0).blocksDug,
          (digArea time (fun _ => false) true digFuel w c1 c2 t0).totalBlocks⟩ ∧
      (digArea time (fun _ => false) true digFuel w c1 c2 t0).blocksDug ≤
        (digArea time (fun _ => false) true digFuel w c1 c2 t0).totalBlocks) ∧
    (w.good →
      (digArea time (fun _ => false) true (digFuel + 2) w c1 c2 t0).blocksDug =
        (digArea time (fun _ => false) true (digFuel + 2) w c1 c2 t0).totalBlocks) := by
  have hinit : emissionsInv ⟨w, 0, t0, []⟩ := ⟨List.chain'_nil, by simp⟩
  refine ⟨?_, ⟨?_, ?_, ?_⟩, fun hg => ?_⟩
  · have hinv := digAreaLoop_inv time disc hasCb digFuel
      (digAreaPositions c1 c2).length (digAreaPositions c1 c2) 0 _ hinit
    simp only [digArea]
    cases hsnd : (digAreaLoop time disc hasCb digFuel (digAreaPositions c1 c2).length
        (digAreaPositions c1 c2) 0 ⟨w, 0, t0, []⟩).2 with
    | some msg =>
      simp only [hsnd]
      exact hinv.1.1
    | none =>
      simp only [hsnd]
      by_cases hcb : hasCb = true
      · subst hcb
        rw [if_pos rfl]
        refine List.chain'_append.mpr ⟨hinv.1.1, List.chain'_singleton _, ?_⟩
        intro a ha b hb
        simp only [List.head?_cons, Option.mem_def, Option.some.injEq] at hb
        subst hb
        exact hinv.1.2 a (List.mem_of_mem_getLast? ha)
      · rw [if_neg hcb]
        exact hinv.1.1
  · simp only [digArea]
    rw [digAreaLoop_none]
  · simp only [digArea]
    rw [digAreaLoop_none]
    rw [if_pos trivial]
    rw [List.getLast?_concat]
  · simp only [digArea]
    rw [digAreaLoop_none]
    simpa using digAreaLoop_le time (fun _ => false) true digFuel
      (digAreaPositions c1 c2).length (digAreaPositions c1 c2) 0 ⟨w, 0, t0, []⟩
  · simp only [digArea]
    rw [digAreaLoop_none]
    simpa using digAreaLoop_good time true digFuel
      (digAreaPositions c1 c2).length (digAreaPositions c1 c2) 0 ⟨w, 0, t0, []⟩ hg

/-- World that is all air. -/
def airWorld : World := ⟨fun _ => .air⟩

/-- Witness for C1 amended: on an all-air 2x2x2 box the final counter equals
the total. -/
theorem digArea_progress_contract_witness :
    (digArea (fun _ => 0) (fun _ => false) true 2 airWorld
        ⟨0, 64, 0⟩ ⟨1, 65, 1⟩ 0).blocksDug =
      (digArea (fun _ => 0) (fun _ => false) true 2 airWorld
        ⟨0, 64, 0⟩ ⟨1, 65, 1⟩ 0).totalBlocks :=
  (digArea_progress_contract (fun _ => 0) (fun _ => false) true 0 airWorld
    ⟨0, 64, 0⟩ ⟨1, 65, 1⟩ 0).2.2 (by intro q name hard e hq; simp [airWorld] at hq)

/-- Splitting lemma: when the disconnect flag first becomes set at iteration
`k`, the sweep behaves exactly like an undisturbed sweep over the first
`k - i` remaining positions and then stops with the Disconnected error (or
finishes normally if fewer than `k - i` positions remain). -/
theorem digAreaLoop_disc_split (time : Nat → Nat) (hasCb : Bool)
    (df total k : Nat) :
    ∀ (ps : List (Position Int)) (i : Nat) (st : AreaSweepState), i ≤ k →
      digAreaLoop time (fun j => decide (k ≤ j)) hasCb df total ps i st =
        ((digAreaLoop time (fun _ => false) hasCb df total
            (ps.take (k - i)) i st).1,
          if ps.length + i ≤ k then none
          else some "Disconnected while digging area")
  | [], i, st, hik => by
    simp only [List.take_nil, digAreaLoop, List.length_nil]
    rw [if_pos (by omega)]
  | p :: rest, i, st, hik => by
    by_cases hik2 : k ≤ i
    · have h0 : k - i = 0 := by omega
      have hc : ¬ ((p :: rest).length + i ≤ k) := by
        simp only [List.length_cons]
        omega
      rw [digAreaLoop, if_pos (by simpa using hik2), h0, List.take_zero,
        if_neg hc]
      rfl
    · have hlt : i < k := by omega
      have hs : k - i = (k - (i + 1)) + 1 := by omega
      rw [digAreaLoop, if_neg (by simp; omega), hs, List.take_succ_cons]
      conv_rhs => rw [digAreaLoop]
      rw [if_neg (by simp)]
      rw [digAreaLoop_disc_split time hasCb df total k rest (i + 1) _ (by omega)]
      have : rest.length + (i + 1) = (p :: rest).length + i := by
        simp only [List.length_cons]
        omega
      rw [this]

/-- State of an undisturbed sweep over the first `k` positions of the box. -/
def truncatedSweep (time : Nat → Nat) (hasCb : Bool) (df : Nat) (w : World)
    (c1 c2 : Position Int) (t0 : Nat) (k : Nat) : AreaSweepState :=
  (digAreaLoop time (fun _ => false) hasCb df (digAreaPositions c1 c2).length
    ((digAreaPositions c1 c2).take k) 0
    { world := w, blocksDug := 0, lastProgressUpdate := t0, emissions := [] }).1

/-- With a disconnect striking at iteration `k` of the sweep, `digArea`
stops there and resolves with the Disconnected failure carrying the
counters accumulated over the first `k` iterations. -/
theorem digArea_disc_eq (time : Nat → Nat) (hasCb : Bool) (df : Nat)
    (w : World) (c1 c2 : Position Int) (t0 k : Nat)
    (hk : k < (digAreaPositions c1 c2).length) :
    digArea time (fun j => decide (k ≤ j)) hasCb df w c1 c2 t0 =
      { emissions := (truncatedSweep time hasCb df w c1 c2 t0 k).emissions,
        blocksDug := (truncatedSweep time hasCb df w c1 c2 t0 k).blocksDug,
        totalBlocks := (digAreaPositions c1 c2).length,
        thrown := some "Disconnected while digging area",
        listenerRemoved := true } := by
  simp only [digArea]
  rw [digAreaLoop_disc_split time hasCb df (digAreaPositions c1 c2).length k
    (digAreaPositions c1 c2) 0 _ (Nat.zero_le k)]
  rw [if_neg (by omega)]
  simp only [Nat.sub_zero]
  rfl

/-- On every exit path the `finally` removes the disconnect listener. -/
theorem digArea_listener_removed (time : Nat → Nat) (disc : Nat → Bool)
    (hasCb : Bool) (df : Nat) (w : World) (c1 c2 : Position Int) (t0 : Nat) :
    (digArea time disc hasCb df w c1 c2 t0).listenerRemoved = true := by
  simp only [digArea]
  cases hsnd : (digAreaLoop time disc hasCb df (digAreaPositions c1 c2).length
      (digAreaPositions c1 c2) 0 ⟨w, 0, t0, []⟩).2 with
  | some msg => simp only [hsnd]
  | none => simp only [hsnd]

/-- World that is all diggable stone. -/
def stoneWorld : World := ⟨fun _ => .solid "stone" 1 none⟩

/-- C8 counterexample: a disconnect striking before the first throttled
emission aborts the job mid-sweep, yet the failure response the tool layer
returns carries NO progress counters (and not even the "Disconnected"
message — the thrown response object stringifies to "[object Object]"). -/
theorem digArea_disconnect_failure_lacks_counters :
    (digArea (fun _ => 0) (fun _ => true) true 2 stoneWorld
        ⟨0, 0, 0⟩ ⟨0, 0, 0⟩ 0).thrown = some "Disconnected while digging area" ∧
    handleDigArea (fun _ => 0) (fun _ => true) 2 stoneWorld ⟨0, 0, 0⟩ ⟨0, 0, 0⟩ 0 =
      { content := [{ type := "text", text := "Failed to dig area: [object Object]" }],
        isError := true } := by
  exact ⟨rfl, rfl⟩

/-- C8 amended: the one-shot disconnect listener is installed for the job's
duration and removed on every exit path (for exits on which the facade still
holds its bot); a disconnect at iteration `k` stops the job at that
iteration boundary, and `digArea` resolves with the Disconnected failure
carrying the engine-level counters of the first `k` iterations; the failure
message shaped by the `dig_area` tool carries the last emitted progress
counters only when at least one throttled emission occurred before the
disconnect (otherwise it reports only "[object Object]" with no counters). -/
theorem digArea_disconnect_contract (time : Nat → Nat) (hasCb : Bool)
    (df : Nat) (w : World) (c1 c2 : Position Int) (t0 k : Nat)
    (hk : k < (digAreaPositions c1 c2).length) :
    digArea time (fun j => decide (k ≤ j)) hasCb df w c1 c2 t0 =
      { emissions := (truncatedSweep time hasCb df w c1 c2 t0 k).emissions,
        blocksDug := (truncatedSweep time hasCb df w c1 c2 t0 k).blocksDug,
        totalBlocks := (digAreaPositions c1 c2).length,
        thrown := some "Disconnected while digging area",
        listenerRemoved := true } ∧
    (∀ disc : Nat → Bool,
      (digArea time disc hasCb df w c1 c2 t0).listenerRemoved = true) ∧
    handleDigArea time (fun j => decide (k ≤ j)) df w c1 c2 t0 =
      digAreaFailureResponse
        ((truncatedSweep time true df w c1 c2 t0 k).emissions.getLast?.getD
          ⟨0, 0, 0⟩) := by
  refine ⟨digArea_disc_eq time hasCb df w c1 c2 t0 k hk, fun disc =>
    digArea_listener_removed time disc hasCb df w c1 c2 t0, ?_⟩
  simp only [handleDigArea]
  rw [digArea_disc_eq time true df w c1 c2 t0 k hk]

/-- Witness for C8 amended: disconnect at iteration 0 of a one-block job. -/
theorem digArea_disconnect_contract_witness :
    handleDigArea (fun _ => 0) (fun j => decide (0 ≤ j)) 2 stoneWorld
        ⟨0, 0, 0⟩ ⟨0, 0, 0⟩ 0 =
      digAreaFailureResponse
        ((truncatedSweep (fun _ => 0) true 2 stoneWorld ⟨0, 0, 0⟩ ⟨0, 0, 0⟩ 0
            0).emissions.getLast?.getD ⟨0, 0, 0⟩) :=
  (digArea_disconnect_contract (fun _ => 0) true 2 stoneWorld
    ⟨0, 0, 0⟩ ⟨0, 0, 0⟩ 0 0 (by decide)).2.2
